import Mathlib

/-!
Verification development for the Qt TS file translator (src/ts_translator.py).

The script processes a Qt TS localization file, selects entries that still
need a translation, queries an external translation service (with a
persistent response cache), and lets an operator accept / skip / edit /
quit for each candidate.  This file gives a shallow embedding of the data
model and the operations of the script, and proves or refutes the frozen
specification claims about it.

Modelling conventions:
* Python strings are `String`; values that may be Python `None` are
  `Option String`.
* The external HTTP call is an oracle `svc` mapping the request key (all
  request-determining inputs) to either a parsed response triple or a
  transport failure; the prompt construction and the response-field
  extraction of lines 150-241 are collapsed into this oracle since they
  only compute data that the environment chooses anyway.
* Exceptions that escape to the outer handler of process_ts_file (which
  prints and calls sys.exit(1)) are modelled as a `crashStop` outcome.
* Interactive input() is modelled by a list of operator input lines;
  running out of input models EOF (an exception, hence a crash).
* Python float() is modelled over `Rat` for plain decimal numerals
  (optional sign, digits, optional fractional part), which covers every
  confidence string the policy compares.
-/

namespace TsTranslator

/-! ### Python string primitives -/

/-- Python whitespace characters recognised by str.strip (ASCII range). -/
def isPyWs (c : Char) : Bool :=
  c = ' ' || c = '\t' || c = '\n' || c = '\r' || c = '\x0b' || c = '\x0c'

/-- Python str.strip(): remove leading and trailing whitespace. -/
def pyStrip (s : String) : String :=
  ⟨((s.toList.dropWhile isPyWs).reverse.dropWhile isPyWs).reverse⟩

/-- Python str.rstrip(chars) specialised to a percent sign. -/
def rstripPercent (s : String) : String :=
  ⟨(s.toList.reverse.dropWhile (fun c => c = '%')).reverse⟩

/-- Python str.lower() (ASCII case folding, which is all the script needs). -/
def pyLower (s : String) : String := ⟨s.toList.map Char.toLower⟩

/-- Python str.endswith, computed on the character lists. -/
def pyEndsWith (s t : String) : Bool := t.toList.isSuffixOf s.toList

/-- Python str.startswith, computed on the character lists. -/
def pyStartsWith (s t : String) : Bool := t.toList.isPrefixOf s.toList

/-- Python str.split on a comma, keeping empty fields. -/
def pySplitComma (s : String) : List String :=
  (s.toList.splitOn ',').map (fun l => ⟨l⟩)

/-- Python truthiness of an optional string: None and "" are falsy. -/
def pyTruthy : Option String → Bool
  | none => false
  | some s => s ≠ ""

/-- Integer value of a list of decimal digits. -/
def digitsToInt (ds : List Char) : Int :=
  ds.foldl (fun a c => a * 10 + ((c.toNat - 48 : Nat) : Int)) 0

/-- Python float() on plain decimal numerals: optional surrounding
whitespace, optional sign, digits with an optional fractional part.
Returns none when float() would raise ValueError. -/
def pyFloat (s : String) : Option Rat :=
  let cs := ((s.toList.dropWhile isPyWs).reverse.dropWhile isPyWs).reverse
  let signAndDigits : Int × List Char :=
    match cs with
    | '-' :: t => (-1, t)
    | '+' :: t => (1, t)
    | t => (1, t)
  let sign := signAndDigits.1
  let cs := signAndDigits.2
  let intDigits := cs.takeWhile Char.isDigit
  let rest := cs.dropWhile Char.isDigit
  match rest with
  | [] =>
    if intDigits.isEmpty then none
    else some ((sign * digitsToInt intDigits : Int) : Rat)
  | '.' :: frac =>
    if frac.all Char.isDigit then
      if intDigits.isEmpty && frac.isEmpty then none
      else
        some (((sign * (digitsToInt intDigits * (10 ^ frac.length : Int) +
          digitsToInt frac) : Int) : Rat) / ((10 ^ frac.length : Nat) : Rat))
    else none
  | _ => none

/-- The confidence string clean-up of lines 435 and 486:
`confidence.strip().rstrip('%').strip()`. -/
def cleanConfidence (s : String) : String := pyStrip (rstripPercent (pyStrip s))

/-! ### Translation cache and the translate_text adapter (lines 89-256) -/

/-- The cache key tuple of lines 139 and 143.  Components are the Python
tuple entries in order; for the to-English direction the first entry is
the sentinel string and target_language is absent, exactly as in the
source. -/
abbrev TransKey := List (Option String)

/-- The openai_cache dictionary: key to (translation, explanation,
confidence).  Only successful calls are inserted, so the stored values
are plain strings. -/
abbrev Cache := List (TransKey × (String × String × String))

/-- Dictionary lookup (Python `key in cache` / `cache[key]`). -/
def cacheLookup (cache : Cache) (k : TransKey) : Option (String × String × String) :=
  (cache.find? (fun p => decide (p.1 = k))).map (fun p => p.2)

/-- Dictionary assignment `cache[key] = value`. -/
def cacheInsert (cache : Cache) (k : TransKey) (v : String × String × String) : Cache :=
  (k, v) :: cache

/-- Lines 114-118: make sure the service URL ends with /chat/completions. -/
def normalizeUrl (u : String) : String :=
  if pyEndsWith u "/chat/completions" then u
  else if pyEndsWith u "/" then u ++ "chat/completions"
  else u ++ "/chat/completions"

/-- Lines 136-143: the cache key for the requested direction. -/
def transKey (to_english : Bool) (source_text context_name comment extracomment : String)
    (target_language : Option String) (additional_prompt openai_model openai_url : String) :
    TransKey :=
  if to_english then
    [some "source_to_english", some source_text, some context_name, some comment,
     some extracomment, some additional_prompt, some openai_model, some openai_url]
  else
    [some source_text, some context_name, some comment, some extracomment,
     target_language, some additional_prompt, some openai_model, some openai_url]

/-- Outcome of one external service invocation, as seen after the response
parsing of lines 207-236: either a (translation, explanation, confidence)
triple, or a raised requests exception / other exception (lines 248-256). -/
inductive ServiceOutcome where
  | success (translation explanation confidence : String)
  | failure
deriving DecidableEq

/-- The service oracle: what one external invocation for a given request
key would produce. -/
abbrev Service := TransKey → ServiceOutcome

/-- Result of translate_text: the returned triple, the cache afterwards,
and how many external service invocations were performed (0 or 1). -/
structure TransOut where
  translation : Option String
  explanation : Option String
  confidence : Option String
  cache : Cache
  invocations : Nat
deriving DecidableEq

/-- translate_text (lines 89-256): consult the cache, otherwise invoke the
service; a successful result is inserted into the cache, a failure is
returned as (None, None, None) without touching the cache and without
raising. -/
def translate_text (svc : Service) (source_text context_name comment extracomment : String)
    (target_language : Option String) (to_english : Bool)
    (openai_url openai_model additional_prompt : String) (cache : Cache) : TransOut :=
  let url := normalizeUrl openai_url
  let key := transKey to_english source_text context_name comment extracomment
    target_language additional_prompt openai_model url
  match cacheLookup cache key with
  | some (t, e, c) => ⟨some t, some e, some c, cache, 0⟩
  | none =>
    match svc key with
    | .success t e c => ⟨some t, some e, some c, cacheInsert cache key (t, e, c), 1⟩
    | .failure => ⟨none, none, none, cache, 1⟩

/-! ### The TS document structures accessed by process_ts_file -/

/-- A translation element, with the pieces the script reads: the type
attribute and the text. -/
structure TransElem where
  typeAttr : Option String
  text : Option String
deriving DecidableEq

/-- A location element: filename and line attributes. -/
structure MsgLocation where
  filename : String
  line : String
deriving DecidableEq

/-- A message element.  For source / comment / extracomment the outer
Option is element presence, the inner Option is the element text. -/
structure Message where
  locations : List MsgLocation
  source : Option (Option String)
  comment : Option (Option String)
  extracomment : Option (Option String)
  translation : Option TransElem
deriving DecidableEq

/-- A context element: the optional name element (with optional text) and
the messages. -/
structure TSContext where
  nameElem : Option (Option String)
  messages : List Message
deriving DecidableEq

/-- The run configuration handed to process_ts_file. -/
structure Config where
  openai_url : String
  openai_model : String
  additional_prompt : String
  translate_empty : Bool
  skip_ui : Bool
  cache_only : Bool
  translate_non_english_source : Bool
  skip_context_prefixes : String
deriving DecidableEq

/-- The external collaborators: the translation service and the external
editor (edit_translation, which returns the edited text, or the original
text when the editor fails). -/
structure Env where
  svc : Service
  editor : String → String

/-- The mutable state threaded through the processing loop. -/
structure RunSt where
  cache : Cache
  inputs : List String
  unfinished_count : Nat
  empty_count : Nat
  processed_count : Nat
  non_english_count : Nat
  invocations : Nat
  reports : List (Option String × Option String × Option String)
deriving DecidableEq

/-- An early stop of the message loop: the operator quit, or an exception
reached the outer handler of process_ts_file (which exits the process). -/
inductive StopKind where
  | quitStop
  | crashStop
deriving DecidableEq

/-- should_translate_element (lines 278-296). -/
def should_translate_element (translation_elem : TransElem) (translate_empty : Bool) : Bool :=
  let is_unfinished := translation_elem.typeAttr = some "unfinished"
  let is_empty :=
    match translation_elem.text with
    | none => true
    | some t => pyStrip t = ""
  is_unfinished || (is_empty && translate_empty)

/-- The comment / extracomment normalization of lines 387 and 390:
element text if the element exists and has text, else the empty string. -/
def commentText : Option (Option String) → String
  | some (some t) => t
  | _ => ""

/-- The marker checked on line 490, the string I~m sorry, but it seems
(with an apostrophe), built here from the character code 39. -/
def apologyMarker : String := "I" ++ String.mk [Char.ofNat 39] ++ "m sorry, but it seems"

/-- Outcome of the interactive accept / skip / edit / quit loop. -/
inductive LoopOut where
  | accepted (txt : Option String)
  | skipped
  | quitRun
  | crashed
deriving DecidableEq

/-- The while-True operator loop of lines 489-527, driven by the list of
operator input lines.  Each iteration first recomputes the valid choice
set (line 490) - which evaluates explanation.startswith and therefore
raises AttributeError when the translation is falsy and the explanation
is None - then consumes one input line.  Invalid choices re-prompt; the
edit branch invokes the external editor and consumes a confirmation
line; running out of input models an input() exception. -/
def decisionLoop (editor : String → String) (translated_text explanation : Option String) :
    List String → LoopOut × List String
  | [] => (.crashed, [])
  | inp :: rest =>
    if !pyTruthy translated_text && explanation.isNone then (.crashed, inp :: rest)
    else
      let restricted :=
        !pyTruthy translated_text && pyStartsWith (explanation.getD "") apologyMarker
      let choice := pyLower inp
      let valid :=
        if restricted then ["no", "n", "edit", "e", "quit", "q"].contains choice
        else ["yes", "y", "no", "n", "edit", "e", "quit", "q"].contains choice
      if !valid then decisionLoop editor translated_text explanation rest
      else if choice = "yes" || choice = "y" then (.accepted translated_text, rest)
      else if choice = "no" || choice = "n" then (.skipped, rest)
      else if choice = "edit" || choice = "e" then
        match translated_text with
        | none => (.crashed, rest)
        | some t =>
          match rest with
          | [] => (.crashed, [])
          | conf :: rest2 =>
            if pyLower conf = "yes" || pyLower conf = "y" then
              (.accepted (some (editor t)), rest2)
            else decisionLoop editor translated_text explanation rest2
      else (.quitRun, rest)

/-- Apply the outcome of the operator loop to the message and the run
state (lines 503-527): acceptance sets the translation text, pops the
type attribute and increments the processed count; quit and crash stop
the run. -/
def interactiveDecision (env : Env) (m : Message) (te : TransElem)
    (translated_text explanation : Option String) (st : RunSt) :
    Message × RunSt × Option StopKind :=
  match decisionLoop env.editor translated_text explanation st.inputs with
  | (.accepted txt, rest) =>
    ({ m with translation := some { te with typeAttr := none, text := txt } },
     { st with inputs := rest, processed_count := st.processed_count + 1 }, none)
  | (.skipped, rest) => (m, { st with inputs := rest }, none)
  | (.quitRun, rest) => (m, { st with inputs := rest }, some .quitStop)
  | (.crashed, rest) => (m, { st with inputs := rest }, some .crashStop)

/-- Lines 470-474: for an ellipsis-only source the raw translation is
moved into the explanation slot, the translation is forced empty and the
confidence is forced to "0". -/
def ellipsisAdjust (source_text : String) (tt ex cf : Option String) :
    Option String × Option String × Option String :=
  if pyStrip source_text = "..." || pyStrip source_text = "…" then (some "", tt, some "0")
  else (tt, ex, cf)

/-- Lines 460-529: normal-direction translation of one selected message,
the ellipsis special case, the confidence gate and the operator loop (or
the cache-only counting). -/
def processNormal (cfg : Config) (env : Env) (target_language context_name : String)
    (source_text comment_text extracomment_text : String) (m : Message) (te : TransElem)
    (st : RunSt) : Message × RunSt × Option StopKind :=
  let r := translate_text env.svc source_text context_name comment_text extracomment_text
    (some target_language) false cfg.openai_url cfg.openai_model cfg.additional_prompt
    st.cache
  let st := { st with cache := r.cache, invocations := st.invocations + r.invocations }
  let adjusted := ellipsisAdjust source_text r.translation r.explanation r.confidence
  let translated_text := adjusted.1
  let explanation := adjusted.2.1
  let confidence := adjusted.2.2
  if !cfg.cache_only then
    if pyTruthy confidence then
      match pyFloat (cleanConfidence (confidence.getD "")) with
      | none => (m, st, some .crashStop)
      | some q =>
        if q < 10 then (m, st, none)
        else interactiveDecision env m te translated_text explanation st
    else interactiveDecision env m te translated_text explanation st
  else (m, { st with processed_count := st.processed_count + 1 }, none)

/-- Lines 367-371: count the selected entry as unfinished or empty. -/
def countSelected (st : RunSt) (te : TransElem) : RunSt :=
  if te.typeAttr = some "unfinished" then
    { st with unfinished_count := st.unfinished_count + 1 }
  else { st with empty_count := st.empty_count + 1 }

/-- Outcome of the optional to-English diagnostic of lines 422-445. -/
inductive DiagOut where
  | crash (st : RunSt)
  | divert (st : RunSt)
  | continueRun (st : RunSt)

/-- Lines 422-445: when the non-English-source mode is on and the source
is non-blank, call the service in to-English direction; a strictly
positive parsed confidence reports the rendering and diverts the entry
(skipping its normal translation); an unparsable confidence string is a
raised ValueError; otherwise processing continues. -/
def diagStep (cfg : Config) (env : Env) (context_name source_text comment_text
    extracomment_text : String) (st : RunSt) : DiagOut :=
  if cfg.translate_non_english_source && !(pyStrip source_text = "") then
    let r := translate_text env.svc source_text context_name comment_text
      extracomment_text none true cfg.openai_url cfg.openai_model
      cfg.additional_prompt st.cache
    let st := { st with cache := r.cache, invocations := st.invocations + r.invocations }
    if pyTruthy r.confidence then
      match pyFloat (cleanConfidence (r.confidence.getD "")) with
      | none => .crash st
      | some q =>
        if 0 < q then
          .divert { st with
            non_english_count := st.non_english_count + 1
            reports := st.reports ++ [(r.translation, r.explanation, r.confidence)] }
        else .continueRun st
    else .continueRun st
  else .continueRun st

/-- Lines 346-529: processing of one message element: the skip-ui gate,
the selection predicate, the counters, the structural-anomaly skips, the
optional to-English diagnostic and then the normal translation. -/
def processMessage (cfg : Config) (env : Env) (target_language context_name : String)
    (st : RunSt) (m : Message) : Message × RunSt × Option StopKind :=
  if cfg.skip_ui && m.locations.any (fun l => pyEndsWith (pyLower l.filename) ".ui") then
    (m, st, none)
  else
    match m.translation with
    | none => (m, st, none)
    | some te =>
      if !should_translate_element te cfg.translate_empty then (m, st, none)
      else
        match m.source with
        | none => (m, countSelected st te, none)
        | some srcOpt =>
          let source_text := srcOpt.getD ""
          let comment_text := commentText m.comment
          let extracomment_text := commentText m.extracomment
          match diagStep cfg env context_name source_text comment_text extracomment_text
            (countSelected st te) with
          | .crash st1 => (m, st1, some .crashStop)
          | .divert st1 => (m, st1, none)
          | .continueRun st1 =>
            processNormal cfg env target_language context_name source_text comment_text
              extracomment_text m te st1

/-- The message loop of one context; on an early stop the remaining
messages are kept unchanged. -/
def processMessages (cfg : Config) (env : Env) (target_language context_name : String) :
    RunSt → List Message → List Message × RunSt × Option StopKind
  | st, [] => ([], st, none)
  | st, msg :: rest =>
    match processMessage cfg env target_language context_name st msg with
    | (m, st1, some stop) => (m :: rest, st1, some stop)
    | (m, st1, none) =>
      let r := processMessages cfg env target_language context_name st1 rest
      (m :: r.1, r.2.1, r.2.2)

/-- Lines 319-322: the comma-separated skip-context-prefixes value. -/
def contextPrefixes (s : String) : List String :=
  if s ≠ "" then ((pySplitComma s).map pyStrip).filter (fun p => p ≠ "") else []

/-- Lines 324-343: one context: skip contexts without a name element,
normalize a missing name text to "" (which bypasses the prefix check,
as in the source), skip contexts whose name starts with a configured
prefix. -/
def processContext (cfg : Config) (env : Env) (target_language : String)
    (pfxs : List String) (st : RunSt) (ctx : TSContext) :
    TSContext × RunSt × Option StopKind :=
  match ctx.nameElem with
  | none => (ctx, st, none)
  | some nameOpt =>
    match nameOpt with
    | none =>
      let r := processMessages cfg env target_language "" st ctx.messages
      ({ ctx with messages := r.1 }, r.2.1, r.2.2)
    | some n =>
      if pfxs.any (fun qq => pyStartsWith n qq) then (ctx, st, none)
      else
        let r := processMessages cfg env target_language n st ctx.messages
        ({ ctx with messages := r.1 }, r.2.1, r.2.2)

/-- The context loop. -/
def processContexts (cfg : Config) (env : Env) (target_language : String)
    (pfxs : List String) : RunSt → List TSContext → List TSContext × RunSt × Option StopKind
  | st, [] => ([], st, none)
  | st, ctx :: rest =>
    match processContext cfg env target_language pfxs st ctx with
    | (c, st1, some stop) => (c :: rest, st1, some stop)
    | (c, st1, none) =>
      let r := processContexts cfg env target_language pfxs st1 rest
      (c :: r.1, r.2.1, r.2.2)

/-- How a run ends. -/
inductive RunResult where
  | completed
  | quit
  | crashed
deriving DecidableEq

/-- Observable outcome of process_ts_file: the final document tree, the
final state, every document tree passed to write_ts_file, the reported
(processed, total) counts, and how the run ended. -/
structure RunOutput where
  doc : List TSContext
  st : RunSt
  writes : List (List TSContext)
  report : Option (Nat × Nat)
  result : RunResult
deriving DecidableEq

/-- The initial run state (counters zeroed, cache loaded, operator input
pending). -/
def initSt (cache : Cache) (inputs : List String) : RunSt :=
  ⟨cache, inputs, 0, 0, 0, 0, 0, []⟩

/-- process_ts_file (lines 298-554): the missing-target-language fatal
exit, the context loop, and the final or quit-time serialization with
the reported counts.  In cache-only mode the file is never written. -/
def process_ts_file (cfg : Config) (env : Env) (language : Option String)
    (doc : List TSContext) (cache : Cache) (inputs : List String) : RunOutput :=
  if language.getD "" = "" then ⟨doc, initSt cache inputs, [], none, .crashed⟩
  else
    let pfxs := contextPrefixes cfg.skip_context_prefixes
    let r := processContexts cfg env (language.getD "") pfxs (initSt cache inputs) doc
    let doc2 := r.1
    let st := r.2.1
    match r.2.2 with
    | some .quitStop =>
      ⟨doc2, st, [doc2], some (st.processed_count, st.unfinished_count + st.empty_count),
        .quit⟩
    | some .crashStop => ⟨doc2, st, [], none, .crashed⟩
    | none =>
      if !cfg.cache_only then
        ⟨doc2, st, [doc2], some (st.processed_count, st.unfinished_count + st.empty_count),
          .completed⟩
      else ⟨doc2, st, [], none, .completed⟩

/-- A message passes the structural gates and the selection predicate
(it will be shown and counted).  Used to state how many entries of a
document are eligible. -/
def messageSelected (cfg : Config) (m : Message) : Bool :=
  !(cfg.skip_ui && m.locations.any (fun l => pyEndsWith (pyLower l.filename) ".ui")) &&
  (match m.translation with
   | none => false
   | some te => should_translate_element te cfg.translate_empty)

/-- Number of eligible messages of one context (0 when the whole context
is skipped). -/
def contextSelectedCount (cfg : Config) (pfxs : List String) (ctx : TSContext) : Nat :=
  match ctx.nameElem with
  | none => 0
  | some nameOpt =>
    match nameOpt with
    | none => (ctx.messages.filter (messageSelected cfg)).length
    | some n =>
      if pfxs.any (fun qq => pyStartsWith n qq) then 0
      else (ctx.messages.filter (messageSelected cfg)).length

/-- Total number of eligible entries of a document. -/
def totalEligible (cfg : Config) (doc : List TSContext) : Nat :=
  (doc.map (contextSelectedCount cfg (contextPrefixes cfg.skip_context_prefixes))).sum

/-! ### Concrete fixtures used by the claim theorems -/

/-- Default run configuration: interactive mode, no optional gates. -/
def baseCfg : Config :=
  ⟨"https://api.openai.com/v1/chat/completions", "gpt-4o", "", false, false, false, false, ""⟩

/-- An editor that returns the text unchanged. -/
def idEditor : String → String := fun s => s

/-- An environment whose service always fails at transport level. -/
def failEnv : Env := ⟨fun _ => .failure, idEditor⟩

/-- An environment whose service always answers with the given triple. -/
def goodEnv (t e c : String) : Env := ⟨fun _ => .success t e c, idEditor⟩

/-- A message with an unfinished translation and the given source text. -/
def unfinishedMsg (src : String) : Message :=
  ⟨[], some (some src), none, none, some ⟨some "unfinished", none⟩⟩

/-- A document with one context holding one unfinished message. -/
def oneMsgDoc (src : String) : List TSContext :=
  [⟨some (some "Ctx"), [unfinishedMsg src]⟩]

/-- A document with one context holding three unfinished messages. -/
def threeMsgDoc : List TSContext :=
  [⟨some (some "Ctx"), [unfinishedMsg "Alpha", unfinishedMsg "Beta", unfinishedMsg "Gamma"]⟩]

/-! ### C2: behaviour of the run when the external call fails -/

/-- The run state carried by a diagnostic outcome. -/
def DiagOut.state : DiagOut → RunSt
  | .crash s => s
  | .divert s => s
  | .continueRun s => s

/-- The cache key produced for a message with the given source text in
the C7 run fixture (context Ctx, empty comments, target ru_RU, default
model and endpoint). -/
def c7Key (src : String) : TransKey :=
  [some src, some "Ctx", some "", some "", some "ru_RU", some "", some "gpt-4o",
   some "https://api.openai.com/v1/chat/completions"]

/-- Configuration with only the non-English-source diagnostic enabled. -/
def neCfg : Config := { baseCfg with translate_non_english_source := true }


/-! ### The XML document model: write_ts_file and the parser -/

/-! ### XML model for the document round trip (write_ts_file, lines 54-57) -/

/-- An ElementTree node: tag, attributes in document order, leading text,
children, and the tail text that follows the element. -/
inductive XElem where
  | mk (tag : String) (attrs : List (String × String)) (text : Option String)
      (children : List XElem) (tailText : Option String)

def XElem.tag : XElem → String | .mk t _ _ _ _ => t
def XElem.attrs : XElem → List (String × String) | .mk _ a _ _ _ => a
def XElem.text : XElem → Option String | .mk _ _ x _ _ => x
def XElem.children : XElem → List XElem | .mk _ _ _ c _ => c
def XElem.tailText : XElem → Option String | .mk _ _ _ _ tl => tl
def XElem.withTail : XElem → Option String → XElem
  | .mk t a x c _, tl => .mk t a x c tl

/-- ElementTree escaping for character data: amp, lt, gt. -/
def escCdataChar (c : Char) : List Char :=
  if c = '&' then "&amp;".toList
  else if c = '<' then "&lt;".toList
  else if c = '>' then "&gt;".toList
  else [c]

def escCdata (cs : List Char) : List Char := (cs.map escCdataChar).flatten

/-- ElementTree escaping for attribute values. -/
def escAttrChar (c : Char) : List Char :=
  if c = '&' then "&amp;".toList
  else if c = '<' then "&lt;".toList
  else if c = '>' then "&gt;".toList
  else if c = '"' then "&quot;".toList
  else if c = '\r' then "&#13;".toList
  else if c = '\n' then "&#10;".toList
  else if c = '\t' then "&#09;".toList
  else [c]

def escAttr (cs : List Char) : List Char := (cs.map escAttrChar).flatten

/-- Serialize attributes: a space before every name="value" pair. -/
def serAttrsC : List (String × String) → List Char
  | [] => []
  | (k, v) :: rest =>
    ' ' :: (k.toList ++ '=' :: '"' :: (escAttr v.toList ++ '"' :: serAttrsC rest))

/-- Serialize a tail: written only when truthy, and escaping the empty
string produces nothing, so the unconditional form is equivalent. -/
def serTailC : Option String → List Char
  | none => []
  | some tl => escCdata tl.toList

mutual
/-- ElementTree serialization of one element without its tail: short
form `tag />` when the text is falsy and there are no children. -/
def serInnerC : XElem → List Char
  | .mk tag attrs text children _ =>
    '<' :: (tag.toList ++ serAttrsC attrs ++
      (if pyTruthy text || !children.isEmpty then
        '>' :: (escCdata (text.getD "").toList ++ serChildrenC children ++
          ('<' :: '/' :: (tag.toList ++ ['>'])))
      else [' ', '/', '>']))
def serChildrenC : List XElem → List Char
  | [] => []
  | c :: cs => serInnerC c ++ serTailC c.tailText ++ serChildrenC cs
end

def isNameChar (c : Char) : Bool := c.isAlphanum || c = '_' || c = '-' || c = '.' || c = ':'
def isNameStartChar (c : Char) : Bool := c.isAlpha || c = '_' || c = ':'
def isXWs (c : Char) : Bool := c = ' ' || c = '\t' || c = '\n' || c = '\r'
def isTextChar (c : Char) : Bool := !(c = '<' || c = '&' || c = '>')
def isAttvChar (c : Char) : Bool :=
  !(c = '"' || c = '&' || c = '<' || c = '>' || c = '\t' || c = '\n' || c = '\r')
def noCR (c : Char) : Bool := !(c = '\r')

def optText : List Char → Option String
  | [] => none
  | cs => some ⟨cs⟩

def parseAttrs : Nat → List Char → Option (List (String × String) × List Char)
  | 0, _ => none
  | fuel + 1, cs =>
    let cs1 := cs.dropWhile isXWs
    match cs1 with
    | [] => none
    | c :: _ =>
      if c = '/' || c = '>' then some ([], cs1)
      else if isNameStartChar c then
        let nm := cs1.takeWhile isNameChar
        match cs1.dropWhile isNameChar with
        | c1 :: cs2a =>
          if c1 = '=' then
            match cs2a with
            | c2 :: cs3 =>
              if c2 = '"' then
                let v := cs3.takeWhile isAttvChar
                match cs3.dropWhile isAttvChar with
                | c4 :: cs5 =>
                  if c4 = '"' then
                    match parseAttrs fuel cs5 with
                    | some (rest, cs6) => some ((⟨nm⟩, ⟨v⟩) :: rest, cs6)
                    | none => none
                  else none
                | [] => none
              else none
            | [] => none
          else none
        | [] => none
      else none

mutual
def parseElemF : Nat → List Char → Option (XElem × List Char)
  | 0, _ => none
  | fuel + 1, cs =>
    match cs with
    | c0 :: cs1 =>
      if c0 = '<' then
        let tagCs := cs1.takeWhile isNameChar
        if !isNameStartChar (tagCs.headD '0') then none
        else
          match parseAttrs (cs.length + 1) (cs1.dropWhile isNameChar) with
          | none => none
          | some (attrs, cs3) =>
            match cs3 with
            | c3 :: cs3a =>
              if c3 = '/' then
                match cs3a with
                | c4 :: cs4 =>
                  if c4 = '>' then some (.mk ⟨tagCs⟩ attrs none [] none, cs4) else none
                | [] => none
              else if c3 = '>' then
                let txt := cs3a.takeWhile isTextChar
                match parseChildrenF fuel (cs3a.dropWhile isTextChar) with
                | none => none
                | some (children, cs6) =>
                  match cs6 with
                  | c6 :: c7 :: cs7 =>
                    if c6 = '<' && c7 = '/' then
                      let closeCs := cs7.takeWhile isNameChar
                      if closeCs = tagCs then
                        match cs7.dropWhile isNameChar with
                        | c8 :: cs9 =>
                          if c8 = '>' then
                            some (.mk ⟨tagCs⟩ attrs (optText txt) children none, cs9)
                          else none
                        | [] => none
                      else none
                    else none
                  | _ => none
              else none
            | [] => none
      else none
    | [] => none

def parseChildrenF : Nat → List Char → Option (List XElem × List Char)
  | 0, _ => none
  | fuel + 1, cs =>
    match cs with
    | c0 :: c1 :: _ =>
      if c0 = '<' then
        if c1 = '/' then some ([], cs)
        else
          match parseElemF fuel cs with
          | none => none
          | some (child, cs1) =>
            let tailCs := cs1.takeWhile isTextChar
            match cs1.dropWhile isTextChar with
            | c2 :: _ =>
              if c2 = '<' then
                match parseChildrenF fuel (cs1.dropWhile isTextChar) with
                | some (siblings, cs3) =>
                  some (child.withTail (optText tailCs) :: siblings, cs3)
                | none => none
              else none
            | [] => none
      else none
    | _ => none
end

mutual
/-- The XML end-of-line handling performed before parsing: a carriage
return followed by a line feed, and a lone carriage return, both become
a single line feed. -/
def normNl : List Char → List Char
  | [] => []
  | c :: rest => if c = '\r' then '\n' :: normNlCr rest else c :: normNl rest
def normNlCr : List Char → List Char
  | [] => []
  | c :: rest =>
    if c = '\n' then normNl rest
    else if c = '\r' then '\n' :: normNlCr rest
    else c :: normNl rest
end

def wfName (s : String) : Bool :=
  s.toList.all isNameChar && isNameStartChar (s.toList.headD '0')

def wfAttrsB : List (String × String) → Bool
  | [] => true
  | (k, v) :: rest => wfName k && v.toList.all isAttvChar && wfAttrsB rest

def wfTextB : Option String → Bool
  | none => true
  | some t => !t.toList.isEmpty && t.toList.all isTextChar && t.toList.all noCR

mutual
def wfElem : XElem → Bool
  | .mk tag attrs text children _ =>
    wfName tag && wfAttrsB attrs && wfTextB text && wfChildList children
def wfChildList : List XElem → Bool
  | [] => true
  | c :: cs => wfElem c && wfTextB c.tailText && wfChildList cs
end

mutual
def msize : XElem → Nat
  | .mk _ attrs _ children _ => 1 + attrs.length + msizeList children
def msizeList : List XElem → Nat
  | [] => 0
  | c :: cs => 1 + msize c + msizeList cs
end


/-- Looking up a key just inserted finds it. -/
theorem cacheLookup_insert (cache : Cache) (k : TransKey) (v : String × String × String) :
    cacheLookup (cacheInsert cache k v) k = some v := by
  simp [cacheLookup, cacheInsert, List.find?]

/-- C4 (counterexample).  With a failing service and identical key inputs,
the second of two successive translate_text calls performs an external
service invocation as well: the failure is not memoized, so it is not
true that only the first call reaches the service. -/
theorem c4_failure_second_call_invokes_again :
    (translate_text (fun _ => .failure) "Hello" "Ctx" "" "" (some "ru_RU") false
        "https://api.openai.com/v1/chat/completions" "gpt-4o" "" []).invocations = 1 ∧
    (translate_text (fun _ => .failure) "Hello" "Ctx" "" "" (some "ru_RU") false
        "https://api.openai.com/v1/chat/completions" "gpt-4o" ""
        (translate_text (fun _ => .failure) "Hello" "Ctx" "" "" (some "ru_RU") false
          "https://api.openai.com/v1/chat/completions" "gpt-4o" "" []).cache).invocations
      = 1 := by
  constructor <;> rfl

/-- C4 (amended).  Provided the first translate_text call produces a
result (cache hit or successful service call, i.e. its translation slot
is not None), a second call with identical key inputs performs no
external service invocation, returns exactly the memoized triple, and
leaves the cache unchanged. -/
theorem c4_cache_idempotent_after_success
    (svc : Service) (src ctx com ext : String) (tl : Option String) (toEng : Bool)
    (url model ap : String) (cache : Cache)
    (h : (translate_text svc src ctx com ext tl toEng url model ap cache).translation ≠ none) :
    (translate_text svc src ctx com ext tl toEng url model ap
        (translate_text svc src ctx com ext tl toEng url model ap cache).cache).invocations
        = 0 ∧
    (translate_text svc src ctx com ext tl toEng url model ap
        (translate_text svc src ctx com ext tl toEng url model ap cache).cache).translation
        = (translate_text svc src ctx com ext tl toEng url model ap cache).translation ∧
    (translate_text svc src ctx com ext tl toEng url model ap
        (translate_text svc src ctx com ext tl toEng url model ap cache).cache).explanation
        = (translate_text svc src ctx com ext tl toEng url model ap cache).explanation ∧
    (translate_text svc src ctx com ext tl toEng url model ap
        (translate_text svc src ctx com ext tl toEng url model ap cache).cache).confidence
        = (translate_text svc src ctx com ext tl toEng url model ap cache).confidence ∧
    (translate_text svc src ctx com ext tl toEng url model ap
        (translate_text svc src ctx com ext tl toEng url model ap cache).cache).cache
        = (translate_text svc src ctx com ext tl toEng url model ap cache).cache := by
  set key := transKey toEng src ctx com ext tl ap model (normalizeUrl url) with hkey
  cases h1 : cacheLookup cache key with
  | some v =>
    obtain ⟨t, e, c⟩ := v
    simp [translate_text, ← hkey, h1]
  | none =>
    cases h2 : svc key with
    | success t e c =>
      simp [translate_text, ← hkey, h1, h2, cacheLookup_insert]
    | failure =>
      exfalso
      apply h
      simp [translate_text, ← hkey, h1, h2]

/-- Witness for c4_cache_idempotent_after_success at a concrete input. -/
theorem c4_cache_idempotent_after_success_witness :
    (translate_text (fun _ => .success "Привет" "direct translation" "95") "Hello" "Ctx" "" ""
        (some "ru_RU") false "https://api.openai.com/v1/chat/completions" "gpt-4o" ""
        []).translation ≠ none ∧
    (translate_text (fun _ => .success "Привет" "direct translation" "95") "Hello" "Ctx" "" ""
        (some "ru_RU") false "https://api.openai.com/v1/chat/completions" "gpt-4o" ""
        (translate_text (fun _ => .success "Привет" "direct translation" "95") "Hello" "Ctx"
          "" "" (some "ru_RU") false "https://api.openai.com/v1/chat/completions" "gpt-4o" ""
          []).cache).invocations = 0 := by
  refine ⟨by decide, ?_⟩
  exact (c4_cache_idempotent_after_success (fun _ => .success "Привет" "direct translation" "95")
    "Hello" "Ctx" "" "" (some "ru_RU") false "https://api.openai.com/v1/chat/completions"
    "gpt-4o" "" [] (by decide)).1

/-- C10.  If the key is not cached and the external call fails, the failure
triple (None, None, None) is returned, the cache is left unchanged (the
failure is never memoized), and a later call with the same key invokes
the external service again. -/
theorem c10_failure_not_cached
    (svc : Service) (src ctx com ext : String) (tl : Option String) (toEng : Bool)
    (url model ap : String) (cache : Cache)
    (hmiss : cacheLookup cache
      (transKey toEng src ctx com ext tl ap model (normalizeUrl url)) = none)
    (hfail : svc (transKey toEng src ctx com ext tl ap model (normalizeUrl url)) = .failure) :
    (translate_text svc src ctx com ext tl toEng url model ap cache).translation = none ∧
    (translate_text svc src ctx com ext tl toEng url model ap cache).explanation = none ∧
    (translate_text svc src ctx com ext tl toEng url model ap cache).confidence = none ∧
    (translate_text svc src ctx com ext tl toEng url model ap cache).cache = cache ∧
    (translate_text svc src ctx com ext tl toEng url model ap cache).invocations = 1 ∧
    (translate_text svc src ctx com ext tl toEng url model ap
        (translate_text svc src ctx com ext tl toEng url model ap cache).cache).invocations
      = 1 := by
  simp [translate_text, hmiss, hfail]

/-- C2.  The adapter half of the claim holds: a transport failure makes
translate_text return (None, None, None) without touching the cache.
The caller half fails: in an interactive run over one eligible entry, a
service failure does not lead to a skip - the falsy confidence routes
control to the prompt branch, whose line 490 evaluates
explanation.startswith on None, and the resulting AttributeError is
caught by the outer handler which exits the process.  The run aborts
with no file written. -/
theorem c2_service_failure_aborts_run :
    translate_text (fun _ => .failure) "Hello" "Ctx" "" "" (some "ru_RU") false
        "https://api.openai.com/v1/chat/completions" "gpt-4o" "" []
      = ⟨none, none, none, [], 1⟩ ∧
    (process_ts_file baseCfg failEnv (some "ru_RU") (oneMsgDoc "Hello") [] ["yes"]).result
      = .crashed ∧
    (process_ts_file baseCfg failEnv (some "ru_RU") (oneMsgDoc "Hello") [] ["yes"]).writes
      = [] ∧
    (process_ts_file baseCfg failEnv (some "ru_RU") (oneMsgDoc "Hello") [] ["yes"]).doc
      = oneMsgDoc "Hello" := by
  refine ⟨rfl, rfl, rfl, rfl⟩

/-! ### C6: the selection predicate -/

/-- C6.  should_translate_element is true exactly when the type attribute
is unfinished, or the text is absent / blank and the translate-empty
flag is set; and a message whose translation element fails the predicate
is left untouched by processMessage: no service call, no state change,
no mutation. -/
theorem c6_should_translate_element_spec :
    (∀ te flag, should_translate_element te flag = true ↔
      (te.typeAttr = some "unfinished" ∨
        ((te.text = none ∨ pyStrip (te.text.getD "") = "") ∧ flag = true))) ∧
    (∀ cfg env tl cn st m te, m.translation = some te →
      should_translate_element te cfg.translate_empty = false →
      processMessage cfg env tl cn st m = (m, st, none)) := by
  constructor
  · intro te flag
    cases te with
    | mk ta tx =>
      cases tx with
      | none => simp [should_translate_element]
      | some t => simp [should_translate_element]
  · intro cfg env tl cn st m te hm hsel
    unfold processMessage
    by_cases hui : (cfg.skip_ui && m.locations.any
        (fun l => pyEndsWith (pyLower l.filename) ".ui")) = true
    · simp [hui]
    · simp only [Bool.not_eq_true] at hui
      simp [hui, hm, hsel]

/-- Witness for c6_should_translate_element_spec at concrete inputs. -/
theorem c6_should_translate_element_spec_witness :
    (should_translate_element ⟨some "unfinished", none⟩ false = true ↔
      ((⟨some "unfinished", none⟩ : TransElem).typeAttr = some "unfinished" ∨
        (((⟨some "unfinished", none⟩ : TransElem).text = none ∨
          pyStrip ((⟨some "unfinished", none⟩ : TransElem).text.getD "") = "") ∧
          false = true))) ∧
    processMessage baseCfg failEnv "ru_RU" "Ctx" (initSt [] [])
        ⟨[], some (some "Done"), none, none, some ⟨none, some "готово"⟩⟩
      = (⟨[], some (some "Done"), none, none, some ⟨none, some "готово"⟩⟩, initSt [] [], none) := by
  refine ⟨c6_should_translate_element_spec.1 ⟨some "unfinished", none⟩ false, ?_⟩
  exact c6_should_translate_element_spec.2 baseCfg failEnv "ru_RU" "Ctx" (initSt [] [])
    ⟨[], some (some "Done"), none, none, some ⟨none, some "готово"⟩⟩
    ⟨none, some "готово"⟩ rfl (by decide)

/-! ### C8: cache-only mode has no durable effect on the document -/

/-- In cache-only mode processNormal counts the entry as processed and
changes nothing else. -/
theorem processNormal_cache_only (cfg : Config) (env : Env)
    (tl cn src cm ex : String) (m : Message) (te : TransElem) (st : RunSt)
    (hco : cfg.cache_only = true) :
    (processNormal cfg env tl cn src cm ex m te st).1 = m ∧
    (processNormal cfg env tl cn src cm ex m te st).2.1.processed_count
      = st.processed_count + 1 ∧
    (processNormal cfg env tl cn src cm ex m te st).2.1.inputs = st.inputs ∧
    (processNormal cfg env tl cn src cm ex m te st).2.2 = none := by
  simp [processNormal, hco]

/-- The diagnostic step never touches the operator input stream or the
processed count. -/
theorem diagStep_preserves (cfg : Config) (env : Env) (cn src cm ex : String) (st : RunSt) :
    (diagStep cfg env cn src cm ex st).state.inputs = st.inputs ∧
    (diagStep cfg env cn src cm ex st).state.processed_count = st.processed_count := by
  unfold diagStep
  split
  · dsimp only
    split
    · split
      · exact ⟨rfl, rfl⟩
      · split
        · exact ⟨rfl, rfl⟩
        · exact ⟨rfl, rfl⟩
    · exact ⟨rfl, rfl⟩
  · exact ⟨rfl, rfl⟩

/-- The counting step never touches the cache, inputs or processed count. -/
theorem countSelected_preserves (st : RunSt) (te : TransElem) :
    (countSelected st te).inputs = st.inputs ∧
    (countSelected st te).processed_count = st.processed_count ∧
    (countSelected st te).cache = st.cache := by
  unfold countSelected
  split
  · exact ⟨rfl, rfl, rfl⟩
  · exact ⟨rfl, rfl, rfl⟩

/-- In cache-only mode processMessage never mutates the message, never
consumes operator input, and never requests a quit. -/
theorem processMessage_cache_only (cfg : Config) (env : Env) (tl cn : String)
    (st : RunSt) (m : Message) (hco : cfg.cache_only = true) :
    (processMessage cfg env tl cn st m).1 = m ∧
    (processMessage cfg env tl cn st m).2.1.inputs = st.inputs ∧
    (processMessage cfg env tl cn st m).2.2 ≠ some .quitStop := by
  unfold processMessage
  split
  · exact ⟨rfl, rfl, by simp⟩
  · split
    · exact ⟨rfl, rfl, by simp⟩
    · rename_i te hte
      split
      · exact ⟨rfl, rfl, by simp⟩
      · split
        · exact ⟨rfl, (countSelected_preserves st te).1, by simp⟩
        · rename_i srcOpt hsrc
          dsimp only
          split
          · rename_i st1 hdg
            have h1 := diagStep_preserves cfg env cn (srcOpt.getD "") (commentText m.comment)
              (commentText m.extracomment) (countSelected st te)
            rw [hdg] at h1
            exact ⟨rfl, h1.1.trans (countSelected_preserves st te).1, by simp⟩
          · rename_i st1 hdg
            have h1 := diagStep_preserves cfg env cn (srcOpt.getD "") (commentText m.comment)
              (commentText m.extracomment) (countSelected st te)
            rw [hdg] at h1
            exact ⟨rfl, h1.1.trans (countSelected_preserves st te).1, by simp⟩
          · rename_i st1 hdg
            have h1 := diagStep_preserves cfg env cn (srcOpt.getD "") (commentText m.comment)
              (commentText m.extracomment) (countSelected st te)
            rw [hdg] at h1
            have h2 := processNormal_cache_only cfg env tl cn (srcOpt.getD "")
              (commentText m.comment) (commentText m.extracomment) m te st1 hco
            exact ⟨h2.1, (h2.2.2.1).trans (h1.1.trans (countSelected_preserves st te).1),
              by rw [h2.2.2.2]; simp⟩

/-- In cache-only mode the message loop returns the messages unchanged,
preserves the input stream and never stops with a quit. -/
theorem processMessages_cache_only (cfg : Config) (env : Env) (tl cn : String)
    (hco : cfg.cache_only = true) : ∀ (msgs : List Message) (st : RunSt),
    (processMessages cfg env tl cn st msgs).1 = msgs ∧
    (processMessages cfg env tl cn st msgs).2.1.inputs = st.inputs ∧
    (processMessages cfg env tl cn st msgs).2.2 ≠ some .quitStop
  | [], st => ⟨rfl, rfl, by simp [processMessages]⟩
  | msg :: rest, st => by
    have h := processMessage_cache_only cfg env tl cn st msg hco
    rcases hP : processMessage cfg env tl cn st msg with ⟨m1, st1, stop⟩
    rw [hP] at h
    obtain ⟨hm, hin, hq⟩ := h
    replace hm : m1 = msg := hm
    replace hin : st1.inputs = st.inputs := hin
    replace hq : stop ≠ some .quitStop := hq
    cases stop with
    | some s =>
      cases s with
      | quitStop => exact absurd rfl hq
      | crashStop =>
        simp only [processMessages, hP]
        exact ⟨by show m1 :: rest = msg :: rest; rw [hm], hin, by simp⟩
    | none =>
      have ih := processMessages_cache_only cfg env tl cn hco rest st1
      simp only [processMessages, hP]
      refine ⟨?_, ih.2.1.trans hin, ih.2.2⟩
      show m1 :: (processMessages cfg env tl cn st1 rest).1 = msg :: rest
      rw [hm, ih.1]

/-- In cache-only mode one context step returns the context unchanged,
preserves the input stream and never stops with a quit. -/
theorem processContext_cache_only (cfg : Config) (env : Env) (tl : String)
    (pfxs : List String) (st : RunSt) (ctx : TSContext) (hco : cfg.cache_only = true) :
    (processContext cfg env tl pfxs st ctx).1 = ctx ∧
    (processContext cfg env tl pfxs st ctx).2.1.inputs = st.inputs ∧
    (processContext cfg env tl pfxs st ctx).2.2 ≠ some .quitStop := by
  obtain ⟨nameF, msgs⟩ := ctx
  unfold processContext
  rcases nameF with _ | nameOpt
  · exact ⟨rfl, rfl, by simp⟩
  · rcases nameOpt with _ | n
    · dsimp only
      have h := processMessages_cache_only cfg env tl "" hco msgs st
      refine ⟨?_, h.2.1, h.2.2⟩
      show TSContext.mk (some none) (processMessages cfg env tl "" st msgs).1
        = TSContext.mk (some none) msgs
      rw [h.1]
    · dsimp only
      split
      · exact ⟨rfl, rfl, by simp⟩
      · dsimp only
        have h := processMessages_cache_only cfg env tl n hco msgs st
        refine ⟨?_, h.2.1, h.2.2⟩
        show TSContext.mk (some (some n)) (processMessages cfg env tl n st msgs).1
          = TSContext.mk (some (some n)) msgs
        rw [h.1]

/-- In cache-only mode the context loop returns the document unchanged,
preserves the input stream and never stops with a quit. -/
theorem processContexts_cache_only (cfg : Config) (env : Env) (tl : String)
    (pfxs : List String) (hco : cfg.cache_only = true) :
    ∀ (doc : List TSContext) (st : RunSt),
    (processContexts cfg env tl pfxs st doc).1 = doc ∧
    (processContexts cfg env tl pfxs st doc).2.1.inputs = st.inputs ∧
    (processContexts cfg env tl pfxs st doc).2.2 ≠ some .quitStop
  | [], st => ⟨rfl, rfl, by simp [processContexts]⟩
  | ctx :: rest, st => by
    have h := processContext_cache_only cfg env tl pfxs st ctx hco
    rcases hP : processContext cfg env tl pfxs st ctx with ⟨c1, st1, stop⟩
    rw [hP] at h
    obtain ⟨hc, hin, hq⟩ := h
    replace hc : c1 = ctx := hc
    replace hin : st1.inputs = st.inputs := hin
    replace hq : stop ≠ some .quitStop := hq
    cases stop with
    | some s =>
      cases s with
      | quitStop => exact absurd rfl hq
      | crashStop =>
        simp only [processContexts, hP]
        exact ⟨by show c1 :: rest = ctx :: rest; rw [hc], hin, by simp⟩
    | none =>
      have ih := processContexts_cache_only cfg env tl pfxs hco rest st1
      simp only [processContexts, hP]
      refine ⟨?_, ih.2.1.trans hin, ih.2.2⟩
      show c1 :: (processContexts cfg env tl pfxs st1 rest).1 = ctx :: rest
      rw [hc, ih.1]

/-- C8.  With cache-only mode enabled the source document is never
written (no write_ts_file call happens), the document tree is unchanged
at the end of the run, no operator input is ever consumed, and every
selected entry that reaches normal processing is implicitly counted as
processed (accepted) without any mutation; the only state the run grows
is the cache. -/
theorem c8_cache_only_never_writes (cfg : Config) (env : Env) (language : Option String)
    (doc : List TSContext) (cache : Cache) (inputs : List String)
    (hco : cfg.cache_only = true) :
    (process_ts_file cfg env language doc cache inputs).writes = [] ∧
    (process_ts_file cfg env language doc cache inputs).doc = doc ∧
    (process_ts_file cfg env language doc cache inputs).st.inputs = inputs ∧
    (∀ tl cn src cm ex m te st,
      (processNormal cfg env tl cn src cm ex m te st).1 = m ∧
      (processNormal cfg env tl cn src cm ex m te st).2.1.processed_count
        = st.processed_count + 1 ∧
      (processNormal cfg env tl cn src cm ex m te st).2.2 = none) := by
  have hlast : ∀ tl cn src cm ex m te st,
      (processNormal cfg env tl cn src cm ex m te st).1 = m ∧
      (processNormal cfg env tl cn src cm ex m te st).2.1.processed_count
        = st.processed_count + 1 ∧
      (processNormal cfg env tl cn src cm ex m te st).2.2 = none := by
    intro tl cn src cm ex m te st
    have h := processNormal_cache_only cfg env tl cn src cm ex m te st hco
    exact ⟨h.1, h.2.1, h.2.2.2⟩
  unfold process_ts_file
  split
  · exact ⟨rfl, rfl, rfl, hlast⟩
  · rename_i hlang
    have h := processContexts_cache_only cfg env (language.getD "")
      (contextPrefixes cfg.skip_context_prefixes) hco doc (initSt cache inputs)
    rcases hP : processContexts cfg env (language.getD "")
        (contextPrefixes cfg.skip_context_prefixes) (initSt cache inputs) doc
      with ⟨doc2, st1, stop⟩
    rw [hP] at h
    obtain ⟨hd, hin, hq⟩ := h
    cases stop with
    | some s =>
      cases s with
      | quitStop => exact absurd rfl hq
      | crashStop => simp only [hP]; exact ⟨by trivial, hd, hin, hlast⟩
    | none =>
      simp only [hP, hco]
      exact ⟨by trivial, hd, hin, hlast⟩

/-! ### C3: the low-confidence auto-skip gate -/

/-- Helper: the confidence gate of lines 484-495 as an equation on
processNormal, used below for C3 and for the quit-semantics run of C7. -/
theorem processNormal_gate (cfg : Config) (env : Env) (tl cn src cm ex : String)
    (m : Message) (te : TransElem) (st : RunSt) (r : TransOut) (q : Rat)
    (hco : cfg.cache_only = false)
    (hr : translate_text env.svc src cn cm ex (some tl) false cfg.openai_url
      cfg.openai_model cfg.additional_prompt st.cache = r)
    (hell1 : pyStrip src ≠ "...") (hell2 : pyStrip src ≠ "…")
    (htr : pyTruthy r.confidence = true)
    (hq : pyFloat (cleanConfidence (r.confidence.getD "")) = some q) :
    (q < 10 →
      (processNormal cfg env tl cn src cm ex m te st).1 = m ∧
      (processNormal cfg env tl cn src cm ex m te st).2.1.processed_count
        = st.processed_count ∧
      (processNormal cfg env tl cn src cm ex m te st).2.1.inputs = st.inputs ∧
      (processNormal cfg env tl cn src cm ex m te st).2.2 = none) ∧
    (10 ≤ q →
      processNormal cfg env tl cn src cm ex m te st =
        interactiveDecision env m te r.translation r.explanation
          { st with cache := r.cache, invocations := st.invocations + r.invocations }) := by
  have hadj : ellipsisAdjust src r.translation r.explanation r.confidence
      = (r.translation, r.explanation, r.confidence) := by
    unfold ellipsisAdjust
    simp [hell1, hell2]
  unfold processNormal
  dsimp only
  rw [hr, hadj]
  dsimp only
  rw [hco]
  simp only [Bool.not_false, if_true, htr, if_pos]
  rw [hq]
  dsimp only
  constructor
  · intro hlt
    rw [if_pos hlt]
    exact ⟨rfl, rfl, rfl, rfl⟩
  · intro hge
    rw [if_neg (not_lt.mpr hge)]

/-- C3.  In the normal direction of an interactive run, once the result
for an entry is available (with a non-ellipsis source, so the result is
not overridden): a parsed confidence strictly below 10 auto-skips the
entry - no mutation, no processed-count increment, no operator input
consumed; a parsed confidence of 10 or above (including exactly 10)
hands the entry to the interactive decision state machine. -/
theorem c3_confidence_gate (cfg : Config) (env : Env) (tl cn src cm ex : String)
    (m : Message) (te : TransElem) (st : RunSt) (r : TransOut) (q : Rat)
    (hco : cfg.cache_only = false)
    (hr : translate_text env.svc src cn cm ex (some tl) false cfg.openai_url
      cfg.openai_model cfg.additional_prompt st.cache = r)
    (hell1 : pyStrip src ≠ "...") (hell2 : pyStrip src ≠ "…")
    (htr : pyTruthy r.confidence = true)
    (hq : pyFloat (cleanConfidence (r.confidence.getD "")) = some q) :
    (q < 10 →
      (processNormal cfg env tl cn src cm ex m te st).1 = m ∧
      (processNormal cfg env tl cn src cm ex m te st).2.1.processed_count
        = st.processed_count ∧
      (processNormal cfg env tl cn src cm ex m te st).2.1.inputs = st.inputs ∧
      (processNormal cfg env tl cn src cm ex m te st).2.2 = none) ∧
    (10 ≤ q →
      processNormal cfg env tl cn src cm ex m te st =
        interactiveDecision env m te r.translation r.explanation
          { st with cache := r.cache, invocations := st.invocations + r.invocations }) :=
  processNormal_gate cfg env tl cn src cm ex m te st r q hco hr hell1 hell2 htr hq

/-- Witness for c3_confidence_gate at a concrete input (confidence 5). -/
theorem c3_confidence_gate_witness :
    ((5 : Rat) < 10 →
      (processNormal baseCfg (goodEnv "TR" "EXPL" "5") "ru_RU" "Ctx" "Hello" "" ""
        (unfinishedMsg "Hello") ⟨some "unfinished", none⟩ (initSt [] ["no"])).1
        = unfinishedMsg "Hello" ∧
      (processNormal baseCfg (goodEnv "TR" "EXPL" "5") "ru_RU" "Ctx" "Hello" "" ""
        (unfinishedMsg "Hello") ⟨some "unfinished", none⟩
        (initSt [] ["no"])).2.1.processed_count = (initSt [] ["no"]).processed_count ∧
      (processNormal baseCfg (goodEnv "TR" "EXPL" "5") "ru_RU" "Ctx" "Hello" "" ""
        (unfinishedMsg "Hello") ⟨some "unfinished", none⟩ (initSt [] ["no"])).2.1.inputs
        = (initSt [] ["no"]).inputs ∧
      (processNormal baseCfg (goodEnv "TR" "EXPL" "5") "ru_RU" "Ctx" "Hello" "" ""
        (unfinishedMsg "Hello") ⟨some "unfinished", none⟩ (initSt [] ["no"])).2.2 = none) ∧
    ((10 : Rat) ≤ 5 →
      processNormal baseCfg (goodEnv "TR" "EXPL" "5") "ru_RU" "Ctx" "Hello" "" ""
        (unfinishedMsg "Hello") ⟨some "unfinished", none⟩ (initSt [] ["no"]) =
        interactiveDecision (goodEnv "TR" "EXPL" "5") (unfinishedMsg "Hello")
          ⟨some "unfinished", none⟩
          (translate_text (goodEnv "TR" "EXPL" "5").svc "Hello" "Ctx" "" "" (some "ru_RU")
            false baseCfg.openai_url baseCfg.openai_model baseCfg.additional_prompt
            (initSt [] ["no"]).cache).translation
          (translate_text (goodEnv "TR" "EXPL" "5").svc "Hello" "Ctx" "" "" (some "ru_RU")
            false baseCfg.openai_url baseCfg.openai_model baseCfg.additional_prompt
            (initSt [] ["no"]).cache).explanation
          { initSt [] ["no"] with
              cache := (translate_text (goodEnv "TR" "EXPL" "5").svc "Hello" "Ctx" "" ""
                (some "ru_RU") false baseCfg.openai_url baseCfg.openai_model
                baseCfg.additional_prompt (initSt [] ["no"]).cache).cache
              invocations := (initSt [] ["no"]).invocations +
                (translate_text (goodEnv "TR" "EXPL" "5").svc "Hello" "Ctx" "" ""
                  (some "ru_RU") false baseCfg.openai_url baseCfg.openai_model
                  baseCfg.additional_prompt (initSt [] ["no"]).cache).invocations }) :=
  c3_confidence_gate baseCfg (goodEnv "TR" "EXPL" "5") "ru_RU" "Ctx" "Hello" "" ""
    (unfinishedMsg "Hello") ⟨some "unfinished", none⟩ (initSt [] ["no"])
    (translate_text (goodEnv "TR" "EXPL" "5").svc "Hello" "Ctx" "" "" (some "ru_RU") false
      baseCfg.openai_url baseCfg.openai_model baseCfg.additional_prompt
      (initSt [] ["no"]).cache) 5 rfl rfl (by decide) (by decide) (by decide) (by decide)

/-! ### C5: the ellipsis placeholder override -/

/-- C5.  For an entry whose trimmed source text is an ellipsis
placeholder (three dots or the single-glyph ellipsis), the result used
for the decision step is always: empty translation text, the raw
adapter translation moved into the explanation slot, and confidence
forced to "0" - whatever the adapter returned; consequently, in an
interactive run such an entry is always auto-skipped by the confidence
gate: no mutation, no processed count, no operator prompt. -/
theorem c5_ellipsis_override (cfg : Config) (env : Env) (tl cn src cm ex : String)
    (m : Message) (te : TransElem) (st : RunSt) (r : TransOut)
    (hr : translate_text env.svc src cn cm ex (some tl) false cfg.openai_url
      cfg.openai_model cfg.additional_prompt st.cache = r)
    (hell : pyStrip src = "..." ∨ pyStrip src = "…") :
    ellipsisAdjust src r.translation r.explanation r.confidence
      = (some "", r.translation, some "0") ∧
    (cfg.cache_only = false →
      (processNormal cfg env tl cn src cm ex m te st).1 = m ∧
      (processNormal cfg env tl cn src cm ex m te st).2.1.processed_count
        = st.processed_count ∧
      (processNormal cfg env tl cn src cm ex m te st).2.1.inputs = st.inputs ∧
      (processNormal cfg env tl cn src cm ex m te st).2.2 = none) := by
  have hadj : ellipsisAdjust src r.translation r.explanation r.confidence
      = (some "", r.translation, some "0") := by
    unfold ellipsisAdjust
    rcases hell with h | h <;> simp [h]
  refine ⟨hadj, ?_⟩
  intro hco
  have h0 : pyFloat (cleanConfidence ((some "0" : Option String).getD "")) = some 0 := by
    decide
  unfold processNormal
  dsimp only
  rw [hr, hadj]
  dsimp only
  rw [hco]
  simp only [Bool.not_false, if_true]
  have htr0 : pyTruthy (some "0") = true := by decide
  rw [htr0]
  simp only [if_true]
  rw [h0]
  dsimp only
  rw [if_pos (by norm_num : (0 : Rat) < 10)]
  exact ⟨rfl, rfl, rfl, rfl⟩

/-- Witness for c5_ellipsis_override at a concrete input: an ellipsis
source with an adapter that returns a high-confidence translation. -/
theorem c5_ellipsis_override_witness :
    ellipsisAdjust "..."
        (translate_text (goodEnv "TR" "EXPL" "90").svc "..." "Ctx" "" "" (some "ru_RU")
          false baseCfg.openai_url baseCfg.openai_model baseCfg.additional_prompt
          (initSt [] ["no"]).cache).translation
        (translate_text (goodEnv "TR" "EXPL" "90").svc "..." "Ctx" "" "" (some "ru_RU")
          false baseCfg.openai_url baseCfg.openai_model baseCfg.additional_prompt
          (initSt [] ["no"]).cache).explanation
        (translate_text (goodEnv "TR" "EXPL" "90").svc "..." "Ctx" "" "" (some "ru_RU")
          false baseCfg.openai_url baseCfg.openai_model baseCfg.additional_prompt
          (initSt [] ["no"]).cache).confidence
      = (some "",
         (translate_text (goodEnv "TR" "EXPL" "90").svc "..." "Ctx" "" "" (some "ru_RU")
           false baseCfg.openai_url baseCfg.openai_model baseCfg.additional_prompt
           (initSt [] ["no"]).cache).translation, some "0") ∧
    (baseCfg.cache_only = false →
      (processNormal baseCfg (goodEnv "TR" "EXPL" "90") "ru_RU" "Ctx" "..." "" ""
        (unfinishedMsg "...") ⟨some "unfinished", none⟩ (initSt [] ["no"])).1
        = unfinishedMsg "..." ∧
      (processNormal baseCfg (goodEnv "TR" "EXPL" "90") "ru_RU" "Ctx" "..." "" ""
        (unfinishedMsg "...") ⟨some "unfinished", none⟩
        (initSt [] ["no"])).2.1.processed_count = (initSt [] ["no"]).processed_count ∧
      (processNormal baseCfg (goodEnv "TR" "EXPL" "90") "ru_RU" "Ctx" "..." "" ""
        (unfinishedMsg "...") ⟨some "unfinished", none⟩ (initSt [] ["no"])).2.1.inputs
        = (initSt [] ["no"]).inputs ∧
      (processNormal baseCfg (goodEnv "TR" "EXPL" "90") "ru_RU" "Ctx" "..." "" ""
        (unfinishedMsg "...") ⟨some "unfinished", none⟩ (initSt [] ["no"])).2.2 = none) :=
  c5_ellipsis_override baseCfg (goodEnv "TR" "EXPL" "90") "ru_RU" "Ctx" "..." "" ""
    (unfinishedMsg "...") ⟨some "unfinished", none⟩ (initSt [] ["no"])
    (translate_text (goodEnv "TR" "EXPL" "90").svc "..." "Ctx" "" "" (some "ru_RU") false
      baseCfg.openai_url baseCfg.openai_model baseCfg.additional_prompt
      (initSt [] ["no"]).cache) rfl (Or.inl (by decide))

/-! ### C7: quit semantics -/

/-- C7 (counterexample).  Three eligible entries; the operator accepts
the first and quits on the second.  The run reports 1 of 2 - the
eligible entries counted so far - although the document holds 3
eligible entries, so the reported pair is not (processed, total
eligible) as the claim states. -/
theorem c7_quit_total_counterexample :
    (process_ts_file baseCfg (goodEnv "TR" "EXPL" "90") (some "ru_RU") threeMsgDoc []
        ["yes", "quit"]).report = some (1, 2) ∧
    totalEligible baseCfg threeMsgDoc = 3 ∧
    (process_ts_file baseCfg (goodEnv "TR" "EXPL" "90") (some "ru_RU") threeMsgDoc []
        ["yes", "quit"]).report
      ≠ some ((process_ts_file baseCfg (goodEnv "TR" "EXPL" "90") (some "ru_RU") threeMsgDoc
          [] ["yes", "quit"]).st.processed_count, totalEligible baseCfg threeMsgDoc) := by
  refine ⟨rfl, rfl, by decide⟩

/-- The interactive decision never touches the unfinished / empty
counters. -/
theorem interactiveDecision_counts (env : Env) (m : Message) (te : TransElem)
    (tt ex : Option String) (st : RunSt) :
    (interactiveDecision env m te tt ex st).2.1.unfinished_count = st.unfinished_count ∧
    (interactiveDecision env m te tt ex st).2.1.empty_count = st.empty_count := by
  unfold interactiveDecision
  split <;> exact ⟨rfl, rfl⟩

/-- Normal-direction processing never touches the unfinished / empty
counters. -/
theorem processNormal_counts (cfg : Config) (env : Env) (tl cn src cm ex : String)
    (m : Message) (te : TransElem) (st : RunSt) :
    (processNormal cfg env tl cn src cm ex m te st).2.1.unfinished_count
      = st.unfinished_count ∧
    (processNormal cfg env tl cn src cm ex m te st).2.1.empty_count = st.empty_count := by
  unfold processNormal
  dsimp only
  split
  · split
    · split
      · exact ⟨rfl, rfl⟩
      · split
        · exact ⟨rfl, rfl⟩
        · exact interactiveDecision_counts env m te _ _ _
    · exact interactiveDecision_counts env m te _ _ _
  · exact ⟨rfl, rfl⟩

/-- The diagnostic step never touches the unfinished / empty counters. -/
theorem diagStep_counts (cfg : Config) (env : Env) (cn src cm ex : String) (st : RunSt) :
    (diagStep cfg env cn src cm ex st).state.unfinished_count = st.unfinished_count ∧
    (diagStep cfg env cn src cm ex st).state.empty_count = st.empty_count := by
  unfold diagStep
  split
  · dsimp only
    split
    · split
      · exact ⟨rfl, rfl⟩
      · split
        · exact ⟨rfl, rfl⟩
        · exact ⟨rfl, rfl⟩
    · exact ⟨rfl, rfl⟩
  · exact ⟨rfl, rfl⟩

/-- Counting a selected entry grows unfinished + empty by exactly one. -/
theorem countSelected_sum (st : RunSt) (te : TransElem) :
    (countSelected st te).unfinished_count + (countSelected st te).empty_count
      = st.unfinished_count + st.empty_count + 1 := by
  unfold countSelected
  split
  · dsimp only
    omega
  · dsimp only
    omega

/-- Processing one message grows unfinished + empty by one exactly when
the message is eligible, whatever the outcome: the pair of counters at
any point of the run is the number of eligible entries encountered. -/
theorem processMessage_counts (cfg : Config) (env : Env) (tl cn : String)
    (st : RunSt) (m : Message) :
    (processMessage cfg env tl cn st m).2.1.unfinished_count
      + (processMessage cfg env tl cn st m).2.1.empty_count
    = st.unfinished_count + st.empty_count
      + (if messageSelected cfg m = true then 1 else 0) := by
  unfold processMessage
  split
  · rename_i h
    unfold messageSelected
    rw [h]
    simp
  · rename_i h
    have hg : (cfg.skip_ui
        && m.locations.any fun l => pyEndsWith (pyLower l.filename) ".ui") = false := by
      rw [Bool.eq_false_iff]
      exact h
    unfold messageSelected
    rw [hg]
    simp only [Bool.not_false, Bool.true_and]
    cases htr : m.translation with
    | none =>
      dsimp only
      simp
    | some te =>
      dsimp only
      cases hst : should_translate_element te cfg.translate_empty with
      | false =>
        simp [hst]
      | true =>
        simp only [hst, Bool.not_true, Bool.false_eq_true, if_false, if_true]
        have hcs := countSelected_sum st te
        cases hsrc : m.source with
        | none =>
          dsimp only
          omega
        | some srcOpt =>
          dsimp only
          split
          · rename_i st1 hd
            have hdc := diagStep_counts cfg env cn (srcOpt.getD "")
              (commentText m.comment) (commentText m.extracomment) (countSelected st te)
            rw [hd] at hdc
            dsimp only [DiagOut.state] at hdc
            dsimp only
            omega
          · rename_i st1 hd
            have hdc := diagStep_counts cfg env cn (srcOpt.getD "")
              (commentText m.comment) (commentText m.extracomment) (countSelected st te)
            rw [hd] at hdc
            dsimp only [DiagOut.state] at hdc
            dsimp only
            omega
          · rename_i st1 hd
            have hdc := diagStep_counts cfg env cn (srcOpt.getD "")
              (commentText m.comment) (commentText m.extracomment) (countSelected st te)
            rw [hd] at hdc
            dsimp only [DiagOut.state] at hdc
            have hpn := processNormal_counts cfg env tl cn (srcOpt.getD "")
              (commentText m.comment) (commentText m.extracomment) m te st1
            omega

/-- C7 (amended).  Universally over runs: whenever the context loop
stops with an operator quit, the run ends as quit, the document
produced so far is serialized exactly once and immediately, and the
reported counts are the processed count out of the unfinished + empty
count of the state at the quit - the eligible entries encountered up to
and including the quit entry (each processed message grows that pair by
one exactly when it is eligible), not the total eligible entries of the
document.  Deciding quit leaves the current message unchanged, the
remaining messages of its context and the remaining contexts are
returned untouched. -/
theorem c7_quit_semantics_amended (cfg : Config) (env : Env) (lang : String)
    (doc : List TSContext) (cache : Cache) (inputs : List String)
    (hl : lang ≠ "")
    (hq : (processContexts cfg env lang (contextPrefixes cfg.skip_context_prefixes)
        (initSt cache inputs) doc).2.2 = some StopKind.quitStop) :
    process_ts_file cfg env (some lang) doc cache inputs
      = ⟨(processContexts cfg env lang (contextPrefixes cfg.skip_context_prefixes)
            (initSt cache inputs) doc).1,
         (processContexts cfg env lang (contextPrefixes cfg.skip_context_prefixes)
            (initSt cache inputs) doc).2.1,
         [(processContexts cfg env lang (contextPrefixes cfg.skip_context_prefixes)
            (initSt cache inputs) doc).1],
         some ((processContexts cfg env lang (contextPrefixes cfg.skip_context_prefixes)
              (initSt cache inputs) doc).2.1.processed_count,
           (processContexts cfg env lang (contextPrefixes cfg.skip_context_prefixes)
              (initSt cache inputs) doc).2.1.unfinished_count
             + (processContexts cfg env lang (contextPrefixes cfg.skip_context_prefixes)
              (initSt cache inputs) doc).2.1.empty_count),
         RunResult.quit⟩ ∧
    (∀ (m : Message) (te : TransElem) (tt ex : Option String) (st : RunSt)
        (rest : List String),
      decisionLoop env.editor tt ex st.inputs = (LoopOut.quitRun, rest) →
      interactiveDecision env m te tt ex st
        = (m, { st with inputs := rest }, some StopKind.quitStop)) ∧
    (∀ (cn : String) (st : RunSt) (m : Message) (ms : List Message) (k : StopKind),
      (processMessage cfg env lang cn st m).2.2 = some k →
      processMessages cfg env lang cn st (m :: ms)
        = ((processMessage cfg env lang cn st m).1 :: ms,
           (processMessage cfg env lang cn st m).2.1, some k)) ∧
    (∀ (pfxs : List String) (st : RunSt) (ctx : TSContext) (ctxs : List TSContext)
        (k : StopKind),
      (processContext cfg env lang pfxs st ctx).2.2 = some k →
      processContexts cfg env lang pfxs st (ctx :: ctxs)
        = ((processContext cfg env lang pfxs st ctx).1 :: ctxs,
           (processContext cfg env lang pfxs st ctx).2.1, some k)) ∧
    (∀ (cn : String) (st : RunSt) (m : Message),
      (processMessage cfg env lang cn st m).2.1.unfinished_count
        + (processMessage cfg env lang cn st m).2.1.empty_count
      = st.unfinished_count + st.empty_count
        + (if messageSelected cfg m = true then 1 else 0)) := by
  refine ⟨?_, ?_, ?_, ?_, ?_⟩
  · unfold process_ts_file
    rw [show (some lang).getD "" = lang from rfl]
    rw [if_neg hl]
    dsimp only
    rw [hq]
  · intro m te tt ex st rest h
    unfold interactiveDecision
    rw [h]
  · intro cn st m ms k h
    have hsplit : processMessage cfg env lang cn st m
        = ((processMessage cfg env lang cn st m).1,
           (processMessage cfg env lang cn st m).2.1, some k) := by
      rw [← h]
    rw [processMessages, hsplit]
  · intro pfxs st ctx ctxs k h
    have hsplit : processContext cfg env lang pfxs st ctx
        = ((processContext cfg env lang pfxs st ctx).1,
           (processContext cfg env lang pfxs st ctx).2.1, some k) := by
      rw [← h]
    rw [processContexts, hsplit]
  · intro cn st m
    exact processMessage_counts cfg env lang cn st m

/-- Witness for c7_quit_semantics_amended at a concrete input: the
three-entry run where the operator accepts the first entry and quits on
the second. -/
theorem c7_quit_semantics_amended_witness :
    ("ru_RU" : String) ≠ "" ∧
    (processContexts baseCfg (goodEnv "TR" "EXPL" "90") "ru_RU"
        (contextPrefixes baseCfg.skip_context_prefixes) (initSt [] ["yes", "quit"])
        threeMsgDoc).2.2 = some StopKind.quitStop ∧
    (process_ts_file baseCfg (goodEnv "TR" "EXPL" "90") (some "ru_RU") threeMsgDoc []
        ["yes", "quit"]).result = RunResult.quit ∧
    (process_ts_file baseCfg (goodEnv "TR" "EXPL" "90") (some "ru_RU") threeMsgDoc []
        ["yes", "quit"]).report = some (1, 2) := by
  have h := c7_quit_semantics_amended baseCfg (goodEnv "TR" "EXPL" "90") "ru_RU"
    threeMsgDoc [] ["yes", "quit"] (by decide) rfl
  refine ⟨by decide, rfl, ?_, ?_⟩
  · rw [h.1]
  · rw [h.1]
    rfl

/-! ### C9: the non-English-source diagnostic is never corrective -/

/-- The diagnostic step diverts the entry when the to-English call gives
a truthy confidence parsing to a strictly positive number: the English
rendering triple is appended to the report log, the non-English counter
grows, and processing of the entry ends there. -/
theorem diagStep_divert (cfg : Config) (env : Env) (cn src cm ex : String) (st : RunSt)
    (r : TransOut) (q : Rat)
    (hmode : cfg.translate_non_english_source = true)
    (hsrc : pyStrip src ≠ "")
    (hr : translate_text env.svc src cn cm ex none true cfg.openai_url cfg.openai_model
      cfg.additional_prompt st.cache = r)
    (htr : pyTruthy r.confidence = true)
    (hq : pyFloat (cleanConfidence (r.confidence.getD "")) = some q)
    (hpos : 0 < q) :
    diagStep cfg env cn src cm ex st
      = .divert { st with
          cache := r.cache
          invocations := st.invocations + r.invocations
          non_english_count := st.non_english_count + 1
          reports := st.reports ++ [(r.translation, r.explanation, r.confidence)] } := by
  have hd : (decide (pyStrip src = "")) = false := decide_eq_false hsrc
  unfold diagStep
  rw [hmode, hd]
  try dsimp only
  rw [hr]
  try dsimp only
  rw [htr]
  try dsimp only
  rw [hq]
  try dsimp only
  rw [if_pos hpos]
  rfl

/-- C9.  With the non-English-source-detection mode enabled, an entry
whose to-English diagnostic call yields a truthy confidence parsing to a
strictly positive number is reported (the English rendering is appended
to the diagnostic report log), counted, and then skipped entirely: the
message is not mutated, the processed count does not change, no operator
input is consumed, and no normal-direction service invocation happens
(the invocation count grows only by the diagnostic call itself). -/
theorem c9_non_english_diagnostic (cfg : Config) (env : Env) (tl cn src : String)
    (cm ex : Option (Option String)) (te : TransElem) (st : RunSt) (r : TransOut) (q : Rat)
    (hmode : cfg.translate_non_english_source = true)
    (hsel : should_translate_element te cfg.translate_empty = true)
    (hsrc : pyStrip src ≠ "")
    (hr : translate_text env.svc src cn (commentText cm) (commentText ex) none true
      cfg.openai_url cfg.openai_model cfg.additional_prompt st.cache = r)
    (htr : pyTruthy r.confidence = true)
    (hq : pyFloat (cleanConfidence (r.confidence.getD "")) = some q)
    (hpos : 0 < q) :
    processMessage cfg env tl cn st ⟨[], some (some src), cm, ex, some te⟩
      = (⟨[], some (some src), cm, ex, some te⟩,
         { countSelected st te with
             cache := r.cache
             invocations := (countSelected st te).invocations + r.invocations
             non_english_count := (countSelected st te).non_english_count + 1
             reports := (countSelected st te).reports ++
               [(r.translation, r.explanation, r.confidence)] },
         none) ∧
    (countSelected st te).processed_count = st.processed_count ∧
    (countSelected st te).inputs = st.inputs ∧
    (countSelected st te).invocations = st.invocations := by
  have hinv : (countSelected st te).invocations = st.invocations := by
    unfold countSelected
    split
    · rfl
    · rfl
  refine ⟨?_, (countSelected_preserves st te).2.1, (countSelected_preserves st te).1, hinv⟩
  have hr2 : translate_text env.svc src cn (commentText cm) (commentText ex) none true
      cfg.openai_url cfg.openai_model cfg.additional_prompt
      (countSelected st te).cache = r := by
    rw [(countSelected_preserves st te).2.2]
    exact hr
  have hdiv := diagStep_divert cfg env cn src (commentText cm) (commentText ex)
    (countSelected st te) r q hmode hsrc hr2 htr hq hpos
  unfold processMessage
  simp only [List.any_nil, Bool.and_false, Bool.false_eq_true, if_false]
  try dsimp only
  rw [hsel]
  simp only [Bool.not_true, Bool.false_eq_true, if_false]
  try dsimp only
  simp only [Option.getD_some]
  rw [hdiv]

/-- Witness for c9_non_english_diagnostic at a concrete input: a Russian
source detected as non-English with confidence 80. -/
theorem c9_non_english_diagnostic_witness :
    (processMessage neCfg (goodEnv "Hello" "was Russian" "80") "ru_RU" "Ctx"
        (initSt [] ["no"]) (unfinishedMsg "Привет")).1 = unfinishedMsg "Привет" ∧
    (processMessage neCfg (goodEnv "Hello" "was Russian" "80") "ru_RU" "Ctx"
        (initSt [] ["no"]) (unfinishedMsg "Привет")).2.1.processed_count = 0 ∧
    (processMessage neCfg (goodEnv "Hello" "was Russian" "80") "ru_RU" "Ctx"
        (initSt [] ["no"]) (unfinishedMsg "Привет")).2.1.non_english_count = 1 ∧
    (processMessage neCfg (goodEnv "Hello" "was Russian" "80") "ru_RU" "Ctx"
        (initSt [] ["no"]) (unfinishedMsg "Привет")).2.1.invocations = 1 ∧
    (processMessage neCfg (goodEnv "Hello" "was Russian" "80") "ru_RU" "Ctx"
        (initSt [] ["no"]) (unfinishedMsg "Привет")).2.2 = none := by
  have h := c9_non_english_diagnostic neCfg (goodEnv "Hello" "was Russian" "80") "ru_RU"
    "Ctx" "Привет" none none ⟨some "unfinished", none⟩ (initSt [] ["no"])
    (translate_text (goodEnv "Hello" "was Russian" "80").svc "Привет" "Ctx"
      (commentText none) (commentText none) none true neCfg.openai_url neCfg.openai_model
      neCfg.additional_prompt (initSt [] ["no"]).cache) 80
    rfl (by decide) (by decide) rfl (by decide) (by decide) (by decide)
  refine ⟨?_, ?_, ?_, ?_, ?_⟩ <;> (unfold unfinishedMsg; rw [h.1]) <;> try rfl

/-- Witness for c8_cache_only_never_writes at a concrete input. -/
theorem c8_cache_only_never_writes_witness :
    ({ baseCfg with cache_only := true } : Config).cache_only = true ∧
    (process_ts_file { baseCfg with cache_only := true } (goodEnv "TR" "EXPL" "90")
        (some "ru_RU") threeMsgDoc [] []).writes = [] ∧
    (process_ts_file { baseCfg with cache_only := true } (goodEnv "TR" "EXPL" "90")
        (some "ru_RU") threeMsgDoc [] []).doc = threeMsgDoc := by
  refine ⟨rfl, ?_⟩
  have h := c8_cache_only_never_writes { baseCfg with cache_only := true }
    (goodEnv "TR" "EXPL" "90") (some "ru_RU") threeMsgDoc [] [] rfl
  exact ⟨h.1, h.2.1⟩

/-- Witness for c10_failure_not_cached at a concrete input. -/
theorem c10_failure_not_cached_witness :
    cacheLookup []
        (transKey false "Hello" "Ctx" "" "" (some "ru_RU") "" "gpt-4o"
          (normalizeUrl "https://api.openai.com/v1/chat/completions")) = none ∧
    (translate_text (fun _ => .failure) "Hello" "Ctx" "" "" (some "ru_RU") false
        "https://api.openai.com/v1/chat/completions" "gpt-4o" "" []).cache = [] := by
  refine ⟨rfl, ?_⟩
  exact (c10_failure_not_cached (fun _ => .failure) "Hello" "Ctx" "" "" (some "ru_RU") false
    "https://api.openai.com/v1/chat/completions" "gpt-4o" "" [] rfl rfl).2.2.2.1

theorem escCdata_id : ∀ (cs : List Char), cs.all isTextChar = true → escCdata cs = cs
  | [], _ => rfl
  | c :: t, h => by
    simp only [List.all_cons, Bool.and_eq_true] at h
    have h1 : c ≠ '&' := by intro he; subst he; exact absurd h.1 (by decide)
    have h2 : c ≠ '<' := by intro he; subst he; exact absurd h.1 (by decide)
    have h3 : c ≠ '>' := by intro he; subst he; exact absurd h.1 (by decide)
    unfold escCdata
    simp only [List.map_cons, List.flatten_cons]
    rw [show escCdataChar c = [c] by unfold escCdataChar; rw [if_neg h1, if_neg h2, if_neg h3]]
    have ih := escCdata_id t h.2
    unfold escCdata at ih
    rw [ih]
    rfl

theorem escAttr_id : ∀ (cs : List Char), cs.all isAttvChar = true → escAttr cs = cs
  | [], _ => rfl
  | c :: t, h => by
    simp only [List.all_cons, Bool.and_eq_true] at h
    have hne : ∀ d : Char, isAttvChar d = false → c ≠ d := by
      intro d hd he
      subst he
      rw [h.1] at hd
      cases hd
    unfold escAttr
    simp only [List.map_cons, List.flatten_cons]
    rw [show escAttrChar c = [c] by
      unfold escAttrChar
      rw [if_neg (hne '&' (by decide)), if_neg (hne '<' (by decide)),
        if_neg (hne '>' (by decide)), if_neg (hne '"' (by decide)),
        if_neg (hne '\r' (by decide)), if_neg (hne '\n' (by decide)),
        if_neg (hne '\t' (by decide))]]
    have ih := escAttr_id t h.2
    unfold escAttr at ih
    rw [ih]
    rfl

theorem serAttrsC_length (attrs : List (String × String)) :
    attrs.length ≤ (serAttrsC attrs).length := by
  induction attrs with
  | nil => simp [serAttrsC]
  | cons a tl ih =>
    obtain ⟨k, v⟩ := a
    simp only [serAttrsC, List.length_cons, List.length_append]
    omega

theorem serInnerC_eq (tag : String) (attrs : List (String × String))
    (text : Option String) (ch : List XElem) (tl : Option String) :
    serInnerC (.mk tag attrs text ch tl)
      = '<' :: (tag.toList ++ serAttrsC attrs ++
        (if pyTruthy text || !ch.isEmpty then
          '>' :: (escCdata (text.getD "").toList ++ serChildrenC ch ++
            ('<' :: '/' :: (tag.toList ++ ['>'])))
        else [' ', '/', '>'])) := by
  rw [serInnerC]

theorem serChildrenC_nil : serChildrenC [] = [] := by rw [serChildrenC]

theorem serChildrenC_cons (c : XElem) (cs : List XElem) :
    serChildrenC (c :: cs) = serInnerC c ++ serTailC c.tailText ++ serChildrenC cs := by
  rw [serChildrenC]

theorem wfTextB_all (o : Option String) (h : wfTextB o = true) :
    (o.getD "").toList.all isTextChar = true := by
  cases o with
  | none => rfl
  | some t =>
    unfold wfTextB at h
    simp only [Bool.and_eq_true] at h
    exact h.1.2

theorem wfTextB_noCR (o : Option String) (h : wfTextB o = true) :
    (o.getD "").toList.all noCR = true := by
  cases o with
  | none => rfl
  | some t =>
    unfold wfTextB at h
    simp only [Bool.and_eq_true] at h
    exact h.2

theorem msize_eq (tag : String) (attrs : List (String × String))
    (text : Option String) (ch : List XElem) (tl : Option String) :
    msize (.mk tag attrs text ch tl) = 1 + attrs.length + msizeList ch := by
  rw [msize]

theorem msizeList_cons (c : XElem) (cs : List XElem) :
    msizeList (c :: cs) = 1 + msize c + msizeList cs := by
  rw [msizeList]

mutual
theorem msize_lt_serLen : ∀ (e : XElem), msize e < (serInnerC e).length
  | .mk tag attrs text ch tl => by
    rw [msize_eq, serInnerC_eq]
    have ha := serAttrsC_length attrs
    have hc := msizeList_le_serLen ch
    by_cases hb : (pyTruthy text || !ch.isEmpty) = true
    · rw [if_pos hb]
      simp only [List.length_cons, List.length_append]
      omega
    · rw [if_neg hb]
      have hce : ch = [] := by
        simp only [Bool.or_eq_true, Bool.not_eq_true', not_or] at hb
        simpa [List.isEmpty_iff] using hb.2
      subst hce
      simp only [List.length_cons, List.length_append]
      simp only [msizeList] at *
      omega
theorem msizeList_le_serLen : ∀ (cl : List XElem), msizeList cl ≤ (serChildrenC cl).length
  | [] => by rw [serChildrenC_nil]; simp [msizeList]
  | c :: cs => by
    rw [msizeList_cons, serChildrenC_cons]
    have h1 := msize_lt_serLen c
    have h2 := msizeList_le_serLen cs
    simp only [List.length_append]
    omega
end

theorem serTailC_eq (o : Option String) (h : wfTextB o = true) :
    serTailC o = (o.getD "").toList := by
  cases o with
  | none => rfl
  | some t =>
    show escCdata t.toList = t.toList
    unfold wfTextB at h
    simp only [Bool.and_eq_true] at h
    exact escCdata_id _ h.1.2

theorem noCR_of_isNameChar (c : Char) (h : isNameChar c = true) : noCR c = true := by
  by_cases hc : c = Char.ofNat 13
  · subst hc
    exact absurd h (by decide)
  · simp [noCR, hc]

theorem noCR_of_isAttvChar (c : Char) (h : isAttvChar c = true) : noCR c = true := by
  by_cases hc : c = Char.ofNat 13
  · subst hc
    exact absurd h (by decide)
  · simp [noCR, hc]

theorem all_noCR_imp (p : Char → Bool) (hp : ∀ c, p c = true → noCR c = true) :
    ∀ (l : List Char), l.all p = true → l.all noCR = true := by
  intro l h
  rw [List.all_eq_true] at h ⊢
  intro c hc
  exact hp c (h c hc)

theorem serAttrsC_noCR : ∀ (attrs : List (String × String)), wfAttrsB attrs = true →
    (serAttrsC attrs).all noCR = true
  | [], _ => rfl
  | (k, v) :: tl, h => by
    unfold wfAttrsB at h
    simp only [Bool.and_eq_true] at h
    obtain ⟨⟨hk, hv⟩, htl⟩ := h
    unfold wfName at hk
    simp only [Bool.and_eq_true] at hk
    rw [show serAttrsC ((k, v) :: tl)
        = ' ' :: (k.toList ++ ('=' :: '"' :: (escAttr v.toList ++ ('"' :: serAttrsC tl))))
        from rfl]
    rw [escAttr_id v.toList hv]
    have h1 : (serAttrsC tl).all noCR = true := serAttrsC_noCR tl htl
    have h2 : k.toList.all noCR = true :=
      all_noCR_imp isNameChar noCR_of_isNameChar k.toList hk.1
    have h3 : v.toList.all noCR = true :=
      all_noCR_imp isAttvChar noCR_of_isAttvChar v.toList hv
    simp only [List.all_cons, List.all_append, h1, h2, h3, Bool.and_true, Bool.true_and]
    all_goals decide

mutual
theorem serInnerC_noCR : ∀ (e : XElem), wfElem e = true → (serInnerC e).all noCR = true
  | .mk tag attrs text ch tl, h => by
    rw [wfElem] at h
    simp only [Bool.and_eq_true] at h
    obtain ⟨⟨⟨htag, hattrs⟩, htext⟩, hch⟩ := h
    unfold wfName at htag
    simp only [Bool.and_eq_true] at htag
    have hT : tag.toList.all noCR = true :=
      all_noCR_imp isNameChar noCR_of_isNameChar tag.toList htag.1
    have hA : (serAttrsC attrs).all noCR = true := serAttrsC_noCR attrs hattrs
    rw [serInnerC_eq]
    by_cases hb : (pyTruthy text || !ch.isEmpty) = true
    · rw [if_pos hb]
      have hX : (text.getD "").toList.all noCR = true := wfTextB_noCR text htext
      have hC : (serChildrenC ch).all noCR = true := serChildrenC_noCR ch hch
      rw [escCdata_id _ (wfTextB_all text htext)]
      simp only [List.all_cons, List.all_append, hT, hA, hX, hC, Bool.and_true, Bool.true_and]
      all_goals decide
    · rw [if_neg hb]
      simp only [List.all_cons, List.all_append, hT, hA, Bool.and_true, Bool.true_and]
      all_goals decide
theorem serChildrenC_noCR : ∀ (cl : List XElem), wfChildList cl = true →
    (serChildrenC cl).all noCR = true
  | [], _ => by rw [serChildrenC_nil]; rfl
  | c :: cs, h => by
    rw [wfChildList] at h
    simp only [Bool.and_eq_true] at h
    obtain ⟨⟨hwc, hwt⟩, hcs⟩ := h
    rw [serChildrenC_cons]
    have h1 := serInnerC_noCR c hwc
    have h2 : (serTailC c.tailText).all noCR = true := by
      rw [serTailC_eq _ hwt]
      exact wfTextB_noCR _ hwt
    have h3 := serChildrenC_noCR cs hcs
    simp only [List.all_append, h1, h2, h3, Bool.and_true, Bool.true_and]
end

end TsTranslator
